import Mathlib

/-!
Verification of the redink-xiaohongshu generation-pipeline core.

This file gives a shallow embedding, in Lean 4, of the execution engine of
the repository:

* `backend/core/base_skill.py`    — the `BaseSkill` execution contract;
* `backend/core/base_pipeline.py` — the `BasePipeline.run_stream` state machine;
* `backend/core/events.py`        — `SSEChannel`, `EventBus`, `get_event_bus`;
* `backend/skills/generate.py`    — the batch image-generation scheduler
  (`GenerateImageSkill.run_stream` and `retry_single_image`).

Python `Any` values flowing between skills are modelled as `Option α` (with
`None` as `none`); Python exceptions as `Except String`; Python dicts as
association lists with insert-or-replace update; wall-clock timestamps and
sleeping delays are outside the embedding (no claim concerns them).  Code
that can raise is modelled as total functions into sum types, so "never
raises to the caller" facts appear as the totality of the model plus the
explicit propagation of error values shown in the theorems.
-/

namespace RedInk

/-! ## `backend/core/base_skill.py` -/
/-- `SkillStatus` enum of `base_skill.py`. -/
inductive SkillStatus
  | pending
  | running
  | success
  | failed
  | cancelled
deriving DecidableEq

/-- `SkillResult` dataclass: success flag, opaque payload (`Any = None` is
`none`), optional error string, metadata mapping (string-valued here, which
is all the source ever stores in it on the paths we model). -/
structure SkillResult (α : Type) where
  success : Bool
  data : Option α := none
  error : Option String := none
  metadata : List (String × String) := []
deriving DecidableEq

/-- The per-step context dictionary the pipeline passes to a skill:
`{"pipeline": ..., "step": ..., "run_id": ..., **variables}`.  The caller's
variable mapping is opaque to the engine, so it is a type parameter `v`. -/
structure SkillCtx (v : Type) where
  pipeline : String
  step : Nat
  runId : Nat
  vars : v

/-- A `BaseSkill` as the engine sees it: its name and the three overridable
methods `pre_run`, `run`, `post_run`, each of which may raise (`Except`). -/
structure Skill (α v : Type) where
  name : String
  pre_run : Option α → SkillCtx v → Except String (Option α)
  run : Option α → SkillCtx v → Except String (SkillResult α)
  post_run : SkillResult α → SkillCtx v → Except String (SkillResult α)

/-- The body of the `try` block of `BaseSkill.execute`: apply `pre_run`,
`run`, `post_run` in order, propagating the first raised fault. -/
def Skill.attempt {α v : Type} (s : Skill α v) (input : Option α)
    (ctx : SkillCtx v) : Except String (SkillResult α) := do
  let processed ← s.pre_run input ctx
  let result ← s.run processed ctx
  s.post_run result ctx

/-- `BaseSkill.execute`: runs `attempt` and converts any escaping fault into
`SkillResult(success=False, error=str(e), metadata={"skill": name})`.  The
returned `SkillStatus` is the skill's status after the call (the transient
`running` assignment at entry is unobservable in a single-threaded run). -/
def Skill.execute {α v : Type} (s : Skill α v) (input : Option α)
    (ctx : SkillCtx v) : SkillResult α × SkillStatus :=
  match s.attempt input ctx with
  | .ok finalResult =>
      (finalResult, if finalResult.success then .success else .failed)
  | .error e =>
      ({ success := false, data := none, error := some e,
         metadata := [("skill", s.name)] }, .failed)

/-! ## `backend/core/base_pipeline.py` -/
/-- `PipelineStatus` enum. -/
inductive PipelineStatus
  | idle
  | running
  | paused
  | success
  | failed
  | cancelled
deriving DecidableEq

/-- The `result` payload attached to a `PipelineEvent`: either a serialized
`SkillResult` (`step_complete`), or the finish payload
`{"success": True, "data": ...}` / `{"success": False, "error": ...}`. -/
inductive EvResult (α : Type)
  | skillRes (r : SkillResult α)
  | finishOk (data : Option α)
  | finishFail (error : Option String)
deriving DecidableEq

/-- The `metadata` dictionaries `run_stream` attaches to its events
(elapsed-time entries, being wall-clock, are elided). -/
inductive EventMeta
  | startMeta (pipeline : String) (totalSteps : Nat) (runId : Nat)
  | statusMeta (status : String)
  | finishOkMeta (totalSteps : Nat)
  | finishFailMeta (failedAtStep : Nat)
deriving DecidableEq

/-- `PipelineEvent` dataclass (timestamp elided: wall clock). -/
structure PipelineEvent (α : Type) where
  event : String
  step : Option Nat := none
  skill : Option String := none
  result : Option (EvResult α) := none
  error : Option String := none
  progress : Option ℚ := none
  metadata : EventMeta
deriving DecidableEq

/-- `progress = step / total_skills`, as the exact rational. -/
def progOf (step total : Nat) : ℚ := (step : ℚ) / (total : ℚ)

/-- The `start` event of `run_stream`. -/
def startEvent {α : Type} (pname : String) (total runId : Nat) :
    PipelineEvent α :=
  { event := "start", metadata := .startMeta pname total runId }

/-- The per-step `progress` event of `run_stream`. -/
def progressEvent {α : Type} (step : Nat) (sname : String) (prog : ℚ) :
    PipelineEvent α :=
  { event := "progress", step := some step, skill := some sname,
    progress := some prog, metadata := .statusMeta "running" }

/-- The per-step `step_complete` event of `run_stream`. -/
def stepCompleteEvent {α : Type} (step : Nat) (sname : String)
    (r : SkillResult α) (prog : ℚ) : PipelineEvent α :=
  { event := "step_complete", step := some step, skill := some sname,
    result := some (.skillRes r), progress := some prog,
    metadata := .statusMeta "completed" }

/-- The `error` event emitted when a skill result has `success=False`. -/
def errorEvent {α : Type} (step : Nat) (sname : String) (err : Option String) :
    PipelineEvent α :=
  { event := "error", step := some step, skill := some sname, error := err,
    metadata := .statusMeta "failed" }

/-- The `finish` event of a fully successful run. -/
def finishOkEvent {α : Type} (total : Nat) (data : Option α) :
    PipelineEvent α :=
  { event := "finish", result := some (.finishOk data),
    metadata := .finishOkMeta total }

/-- The `finish` event emitted after a failed step. -/
def finishFailEvent {α : Type} (err : Option String) (failedAt : Nat) :
    PipelineEvent α :=
  { event := "finish", result := some (.finishFail err),
    metadata := .finishFailMeta failedAt }

/-- A `BasePipeline`: its name and the skill list fixed by `build_skills`. -/
structure Pipeline (α v : Type) where
  name : String
  skills : List (Skill α v)

/-- What one call of `run_stream` produces, observably: the yielded event
list, the final pipeline status, the trace of `skill.execute` calls as
`(skill name, input given, output data)` triples in call order, and the
final `current_data`. -/
structure RunOut (α : Type) where
  events : List (PipelineEvent α)
  status : PipelineStatus
  calls : List (String × Option α × Option α)
  finalData : Option α
deriving DecidableEq

/-- The `for i, skill in enumerate(self.skills)` loop of `run_stream`,
starting after `step0` already-completed steps with accumulated data `cur`.
Mirrors lines 127-161 of `base_pipeline.py`: emit `progress`, call
`execute`, then either (`success=False`) emit `error` and the failed
`finish` and stop, or emit `step_complete` and chain `current_data`. -/
def runLoop {α v : Type} (pname : String) (runId : Nat) (vars : v)
    (total : Nat) : List (Skill α v) → Nat → Option α → RunOut α
  | [], _, cur => ⟨[finishOkEvent total cur], .success, [], cur⟩
  | s :: rest, step0, cur =>
      let step := step0 + 1
      let prog := progOf step total
      let res := (s.execute cur ⟨pname, step, runId, vars⟩).1
      if res.success then
        let o := runLoop pname runId vars total rest step res.data
        ⟨progressEvent step s.name prog ::
            stepCompleteEvent step s.name res prog :: o.events,
          o.status, (s.name, cur, res.data) :: o.calls, o.finalData⟩
      else
        ⟨[progressEvent step s.name prog, errorEvent step s.name res.error,
            finishFailEvent res.error step],
          .failed, [(s.name, cur, res.data)], cur⟩

/-- `BasePipeline.run_stream`: fresh context, `start` event, then the step
loop.  The function is total: every fault a skill could raise is already
converted inside `Skill.execute`, so the generator never raises. -/
def runStream {α v : Type} (p : Pipeline α v) (input : Option α) (vars : v)
    (runId : Nat) : RunOut α :=
  let total := p.skills.length
  let o := runLoop p.name runId vars total p.skills 0 input
  ⟨startEvent p.name total runId :: o.events, o.status, o.calls, o.finalData⟩

/-- The observable signature of a pipeline event used to state sequence
shapes: tag, step, skill, progress fraction, and — for `finish` events —
the success flag of the finish payload. -/
structure EvSig where
  tag : String
  step : Option Nat
  skill : Option String
  progress : Option ℚ
  finishSuccess : Option Bool
deriving DecidableEq

/-- Signature of an event. -/
def evSig {α : Type} (e : PipelineEvent α) : EvSig :=
  ⟨e.event, e.step, e.skill, e.progress,
    match e.result with
    | some (.finishOk _) => some true
    | some (.finishFail _) => some false
    | _ => none⟩

/-- Expected `(progress, step_complete)` signature pairs for a run of the
named skills starting after `step0` completed steps, out of `total`. -/
def okStepSigs (total : Nat) : List String → Nat → List EvSig
  | [], _ => []
  | n :: rest, step0 =>
      ⟨"progress", some (step0 + 1), some n, some (progOf (step0 + 1) total),
        none⟩ ::
      ⟨"step_complete", some (step0 + 1), some n,
        some (progOf (step0 + 1) total), none⟩ ::
      okStepSigs total rest (step0 + 1)

/-- A skill whose `execute` reports success on every input and context. -/
def AlwaysOk {α v : Type} (s : Skill α v) : Prop :=
  ∀ (input : Option α) (ctx : SkillCtx v),
    ((s.execute input ctx).1).success = true

/-- A skill whose `execute` reports failure on every input and context. -/
def AlwaysFails {α v : Type} (s : Skill α v) : Prop :=
  ∀ (input : Option α) (ctx : SkillCtx v),
    ((s.execute input ctx).1).success = false

/-- The call trace chains data linearly: the first call receives `cur`, and
every later call receives the recorded output of the call before it. -/
def Chained {α : Type} :
    Option α → List (String × Option α × Option α) → Prop
  | _, [] => True
  | cur, (_, inp, out) :: rest => inp = cur ∧ Chained out rest

/-- A concrete skill whose `run` raises. -/
def boomSkill : Skill Nat Unit :=
  { name := "boom"
    pre_run := fun i _ => .ok i
    run := fun _ _ => .error "boom failure"
    post_run := fun r _ => .ok r }

/-- A concrete always-succeeding skill (adds one to its input). -/
def stepSkill (n : String) : Skill Nat Unit :=
  { name := n
    pre_run := fun i _ => .ok i
    run := fun i _ =>
      .ok { success := true, data := i.map (· + 1), error := none,
            metadata := [] }
    post_run := fun r _ => .ok r }

/-- A concrete always-failing skill. -/
def brokenSkill : Skill Nat Unit :=
  { name := "broken"
    pre_run := fun i _ => .ok i
    run := fun _ _ =>
      .ok { success := false, data := none, error := some "nope",
            metadata := [] }
    post_run := fun r _ => .ok r }

/-! ## `backend/core/events.py` -/
/-- `Event` dataclass of `events.py` (timestamp elided: wall clock). -/
structure Event where
  type : String
  data : List (String × String) := []
  source : Option String := none
  correlation_id : Option String := none
deriving DecidableEq

/-- `queue.Queue.full()` for a queue with the given `maxsize`: per Python's
queue semantics a non-positive `maxsize` means the queue is unbounded and
`full()` is never true. -/
def queueFull (maxSize : Nat) (q : List Event) : Bool :=
  decide (0 < maxSize) && decide (maxSize ≤ q.length)

/-- `SSEChannel`: id, bounded queue (front = oldest), subscriber
bookkeeping, closed flag. -/
structure SSEChannel where
  channel_id : String
  max_size : Nat
  queue : List Event := []
  closed : Bool := false
  subscribers : List String := []
deriving DecidableEq

/-- `SSEChannel.publish`: returns `False` without touching the queue when
the channel is closed; otherwise evicts the oldest element when the queue
is full, then enqueues (`put_nowait`; the second fullness test is the
`queue.Full` exception that `put_nowait` would raise, which the
surrounding `except` turns into `False` — unreachable once an element was
evicted). -/
def SSEChannel.publish (c : SSEChannel) (e : Event) : Bool × SSEChannel :=
  if c.closed then (false, c)
  else
    let q := if queueFull c.max_size c.queue then c.queue.drop 1 else c.queue
    if queueFull c.max_size q then (false, { c with queue := q })
    else (true, { c with queue := q ++ [e] })

/-- `SSEChannel.get_events`: drains everything currently queued, in
queue order (the poll timeout only matters for concurrent producers,
which are outside this single-threaded model). -/
def SSEChannel.get_events (c : SSEChannel) : List Event × SSEChannel :=
  (c.queue, { c with queue := [] })

/-- `SSEChannel.close`. -/
def SSEChannel.close (c : SSEChannel) : SSEChannel :=
  { c with closed := true, subscribers := [] }

/-- Publish a list of events in order, collecting the returned flags. -/
def publishAll (c : SSEChannel) : List Event → List Bool × SSEChannel
  | [] => ([], c)
  | e :: rest =>
      let r := c.publish e
      let r' := publishAll r.2 rest
      (r.1 :: r'.1, r'.2)

/-- Three concrete events. -/
def evA : Event := { type := "pipeline.progress" }

/-- Second concrete event. -/
def evB : Event := { type := "pipeline.step_complete" }

/-- Third concrete event. -/
def evC : Event := { type := "pipeline.finish" }

/-- An `EventEmitter` identified by its allocation id (its handler
registries are irrelevant to the identity claim modelled here and are
omitted; fresh construction allocates a fresh id). -/
structure EventEmitter where
  emitterId : Nat
deriving DecidableEq

/-- An `EventBus` object: its allocation id, its `_emitter`, and its
`_channels` registry. -/
structure EventBus where
  busId : Nat
  emitter : EventEmitter
  channels : List (String × SSEChannel) := []
deriving DecidableEq

/-- The process-wide mutable state behind the `EventBus` singleton: the
class attribute `_instance` plus an allocation counter giving fresh
object identities. -/
structure BusWorld where
  stored : Option EventBus := none
  nextId : Nat := 0
deriving DecidableEq

/-- One call of `EventBus()` — `__new__` followed by `__init__`: if
`_instance` is set it is returned as-is (`__init__` early-returns on
`_initialized`); otherwise a fresh bus with a fresh `EventEmitter` and an
empty channel registry is created, stored in `_instance` and returned. -/
def eventBusNew (w : BusWorld) : EventBus × BusWorld :=
  match w.stored with
  | some b => (b, w)
  | none =>
      let b : EventBus := ⟨w.nextId, ⟨w.nextId + 1⟩, []⟩
      (b, ⟨some b, w.nextId + 2⟩)

/-- `get_event_bus()`: `return EventBus()`. -/
def get_event_bus (w : BusWorld) : EventBus × BusWorld :=
  eventBusNew w

/-! ## `backend/skills/generate.py` — the batch generation scheduler

The single-item image generator (the provider client called inside
`_generate_single_image`, together with the artifact save that shares its
`try` block) is the external collaborator of §6 of the spec; it is a
parameter `gen : Page → Option Bytes → Except String Bytes` taking the
page and the optional reference image.  `run_stream` is modelled in its
sequential mode; the opt-in concurrent branch uses a worker pool of size
`MAX_CONCURRENT = 1`, which performs the same generator calls with the
same reference argument in the same submission order, so the per-task
outcomes and the aggregate result modelled here are those of both modes.
Rate-limit sleeps are elided (their `waiting` progress events are kept). -/
/-- Raw image bytes. -/
abbrev Bytes := List Nat

/-- One generation task, a `page` dict: stable index, category tag
(`"cover"`, `"content"`, ...), textual content. -/
structure Page where
  index : Nat
  ptype : String
  content : String
deriving DecidableEq

/-- The single-item generator collaborator. -/
abbrev GenFun := Page → Option Bytes → Except String Bytes

/-- `GenerateImageInput` (the `task_id` is passed separately, already
resolved the way `run_stream` resolves a missing id to a fresh one). -/
structure GenerateImageInput where
  pages : List Page
  full_outline : String := ""
  user_images : Option (List Bytes) := none
  user_topic : String := ""
deriving DecidableEq

/-- Modelled from the spec: `backend/utils/image_compressor.py` is imported
by the scheduler (`from backend.utils.image_compressor import
compress_image`) but the module is absent from the sources.  The spec says
the reference artifact is "downscaled/compressed to a bounded size", so
compression is modelled as truncation to `max_size_kb * 1024` bytes — a
deterministic, size-bounded stand-in. -/
def compress_image (data : Bytes) (max_size_kb : Nat) : Bytes :=
  data.take (max_size_kb * 1024)

/-- Insert-or-replace update of a Python dict modelled as an association
list in insertion order. -/
def dictSet {κ ν : Type} [DecidableEq κ] (k : κ) (v' : ν) :
    List (κ × ν) → List (κ × ν)
  | [] => [(k, v')]
  | (k', w) :: rest =>
      if k' = k then (k, v') :: rest else (k', w) :: dictSet k v' rest

/-- Dict lookup. -/
def dictGet {κ ν : Type} [DecidableEq κ] (k : κ) : List (κ × ν) → Option ν
  | [] => none
  | (k', w) :: rest => if k' = k then some w else dictGet k rest

/-- Dict deletion (`del d[k]`, guarded by `if k in d` in the source, so
deleting an absent key is a no-op here as there). -/
def dictDel {κ ν : Type} [DecidableEq κ] (k : κ) :
    List (κ × ν) → List (κ × ν)
  | [] => []
  | (k', w) :: rest => if k' = k then rest else (k', w) :: dictDel k rest

/-- The entry of `_task_states[task_id]`: the run-scoped Batch Run State. -/
structure TaskState where
  pages : List Page
  generated : List (Nat × String) := []
  failed : List (Nat × String) := []
  cover_image : Option Bytes := none
  full_outline : String := ""
  user_images : Option (List Bytes) := none
  user_topic : String := ""
deriving DecidableEq

/-- The record of one `_generate_single_image` call: the page and the
arguments `reference_image`, `full_outline`, `user_images`, `user_topic`
it received. -/
structure GenCall where
  page : Page
  reference_image : Option Bytes
  full_outline : String
  user_images : Option (List Bytes)
  user_topic : String
deriving DecidableEq

/-- The `(index, success, filename-or-none, error-or-none, bytes-or-none)`
tuple `_generate_single_image` returns. -/
structure GenOutcome where
  index : Nat
  success : Bool
  filename : Option String
  error : Option String
  image : Option Bytes
deriving DecidableEq

/-- `_generate_single_image`: call the generator with the page and the
optional reference; on success the artifact is saved as `{index}.png`; any
escaping fault is converted into a failure tuple.  Also returns the call
record. -/
def generateSingle (gen : GenFun) (page : Page) (ref : Option Bytes)
    (outline : String) (uimgs : Option (List Bytes)) (topic : String) :
    GenOutcome × GenCall :=
  (match gen page ref with
    | .ok b =>
        ⟨page.index, true, some (toString page.index ++ ".png"), none,
          some b⟩
    | .error e => ⟨page.index, false, none, some e, none⟩,
    ⟨page, ref, outline, uimgs, topic⟩)

/-- The image URL `run_stream` reports for a stored artifact. -/
def imageUrl (taskId filename : String) : String :=
  "/api/images/" ++ taskId ++ "/" ++ filename

/-- Events yielded by `GenerateImageSkill.run_stream` (only the fields the
claims observe; `current`/`total` counters of progress events elided). -/
inductive GEvent
  | inputError (message : String)
  | progress (index : Option Nat) (status : String) (phase : String)
  | complete (index : Nat) (image_url : String) (phase : String)
  | genError (index : Nat) (message : Option String) (phase : String)
  | finish (success : Bool) (task_id : String) (images : List String)
      (total completed failed : Nat) (failed_indices : List Nat)
deriving DecidableEq

/-- The cover-selection loop of `run_stream` (lines 375-379): iterate over
the pages; every page tagged `"cover"` overwrites `cover_page` (so the
*last* one wins) and is *not* added to `other_pages`; all other pages are
kept in order. -/
def coverScan : List Page → Option Page × List Page
  | [] => (none, [])
  | p :: rest =>
      let r := coverScan rest
      if p.ptype = "cover" then (some (r.1.getD p), r.2)
      else (r.1, p :: r.2)

/-- Cover selection with the fallback of lines 381-383: if no page is
tagged `"cover"` and the list is non-empty, the first page is the cover
and the rest are the content pages. -/
def splitCover (pages : List Page) : Option Page × List Page :=
  match coverScan pages with
  | (some c, o) => (some c, o)
  | (none, _) =>
      match pages with
      | [] => (none, [])
      | p :: rest => (some p, rest)

/-- `if user_images:` — compress each user reference image to 200 KB;
`None` and the empty list are both falsy and yield `None`. -/
def compressUserImages : Option (List Bytes) → Option (List Bytes)
  | some (b :: bs) => some ((b :: bs).map (fun x => compress_image x 200))
  | _ => none

/-- Accumulated result of the content-page phase. -/
structure ContentOut where
  events : List GEvent
  calls : List GenCall
  outcomes : List GenOutcome
  state : TaskState
  images : List String
  failedPages : List Page

/-- The sequential content-page loop of `run_stream` (lines 522-582):
for each remaining page emit `waiting` (except before the first) and
`generating` progress, call `_generate_single_image` with the retained
cover reference, and record the outcome in the task state and the
success/failure accumulators; a failure never stops the loop. -/
def contentLoop (gen : GenFun) (taskId : String) (coverRef : Option Bytes)
    (outline : String) (uimgs : Option (List Bytes)) (topic : String) :
    List Page → Bool → TaskState → List String → List Page → ContentOut
  | [], _, st, imgs, fpages => ⟨[], [], [], st, imgs, fpages⟩
  | p :: rest, first, st, imgs, fpages =>
      let waitEvs : List GEvent :=
        if first then [] else [.progress (some p.index) "waiting" "content"]
      let r := generateSingle gen p coverRef outline uimgs topic
      if r.1.success then
        let fn := r.1.filename.getD ""
        let st' := { st with generated := dictSet r.1.index fn st.generated }
        let o := contentLoop gen taskId coverRef outline uimgs topic rest
          false st' (imgs ++ [fn]) fpages
        ⟨waitEvs ++ GEvent.progress (some p.index) "generating" "content" ::
            GEvent.complete r.1.index (imageUrl taskId fn) "content" ::
            o.events,
          r.2 :: o.calls, r.1 :: o.outcomes, o.state, o.images,
          o.failedPages⟩
      else
        let st' :=
          { st with failed := dictSet r.1.index (r.1.error.getD "") st.failed }
        let o := contentLoop gen taskId coverRef outline uimgs topic rest
          false st' imgs (fpages ++ [p])
        ⟨waitEvs ++ GEvent.progress (some p.index) "generating" "content" ::
            GEvent.genError r.1.index r.1.error "content" :: o.events,
          r.2 :: o.calls, r.1 :: o.outcomes, o.state, o.images,
          o.failedPages⟩

/-- The `finish` event of `run_stream` (lines 584-596). -/
def finishEvent (taskId : String) (total : Nat) (imgs : List String)
    (failedPages : List Page) : GEvent :=
  .finish failedPages.isEmpty taskId imgs total imgs.length
    failedPages.length (failedPages.map Page.index)

/-- Observable result of one `GenerateImageSkill.run_stream` call: the
yielded events, the `_generate_single_image` call trace in order, the
per-task outcome tuples in order, and the `_task_states[task_id]` entry
(`none` when the early input check failed before the state was created). -/
structure BatchOut where
  events : List GEvent
  calls : List GenCall
  outcomes : List GenOutcome
  state : Option TaskState

/-- `GenerateImageSkill.run_stream` (sequential mode; see the section
comment).  Empty page list: an `error` event and nothing else.  Otherwise:
cover phase — generate the selected cover page first, alone, with no
reference; on success retain `compress_image(bytes, 200)` as the reference
*iff* the returned bytes are truthy (non-empty); on failure record it and
continue.  Content phase — the sequential loop over the remaining pages
with the retained reference (or `None`).  Finally the `finish` event with
`success = (no failed pages)`, the counts, and the failed indices. -/
def genRunStream (gen : GenFun) (inp : GenerateImageInput)
    (taskId : String) : BatchOut :=
  if inp.pages = [] then ⟨[.inputError "页面列表为空"], [], [], none⟩
  else
    let total := inp.pages.length
    let cuimgs := compressUserImages inp.user_images
    let st0 : TaskState :=
      ⟨inp.pages, [], [], none, inp.full_outline, cuimgs, inp.user_topic⟩
    match splitCover inp.pages with
    | (none, _) => ⟨[], [], [], some st0⟩
    | (some cp, others) =>
        let r := generateSingle gen cp none inp.full_outline cuimgs
          inp.user_topic
        if r.1.success then
          let fn := r.1.filename.getD ""
          let coverBytes := r.1.image.getD []
          let st1 :=
            { st0 with generated := dictSet r.1.index fn st0.generated }
          let coverRef : Option Bytes :=
            if coverBytes.isEmpty then none
            else some (compress_image coverBytes 200)
          let st2 :=
            match coverRef with
            | some cd => { st1 with cover_image := some cd }
            | none => st1
          let waitEvs : List GEvent :=
            if others.isEmpty then []
            else [.progress none "waiting" "cover"]
          let batchEvs : List GEvent :=
            if others.isEmpty then []
            else [.progress none "batch_start" "content"]
          let o := contentLoop gen taskId coverRef inp.full_outline cuimgs
            inp.user_topic others true st2 [fn] []
          ⟨(GEvent.progress (some cp.index) "generating" "cover" ::
              GEvent.complete r.1.index (imageUrl taskId fn) "cover" ::
              (waitEvs ++ batchEvs ++ o.events)) ++
              [finishEvent taskId total o.images o.failedPages],
            r.2 :: o.calls, r.1 :: o.outcomes, some o.state⟩
        else
          let st1 :=
            { st0 with
              failed := dictSet r.1.index (r.1.error.getD "") st0.failed }
          let batchEvs : List GEvent :=
            if others.isEmpty then []
            else [.progress none "batch_start" "content"]
          let o := contentLoop gen taskId none inp.full_outline cuimgs
            inp.user_topic others true st1 [] [cp]
          ⟨(GEvent.progress (some cp.index) "generating" "cover" ::
              GEvent.genError r.1.index r.1.error "cover" ::
              (batchEvs ++ o.events)) ++
              [finishEvent taskId total o.images o.failedPages],
            r.2 :: o.calls, r.1 :: o.outcomes, some o.state⟩

/-- The result dict of `retry_single_image`. -/
structure RetryOut where
  success : Bool
  index : Nat
  image_url : Option String
  error : Option String
deriving DecidableEq

/-- The `_task_states` registry. -/
abbrev StatesMap := List (String × TaskState)

/-- `GenerateImageSkill.retry_single_image` (lines 598-647): look up the
run's Batch Run State; take the retained cover as reference when
`use_reference` is set, fall back to the stored outline/topic when the
caller passed empty ones (Python truthiness of `if not full_outline:`),
and always take the stored user images; re-invoke
`_generate_single_image`; on success move the index into `generated` and
delete it from `failed`.  Returns the result dict, the updated registry
and the call record. -/
def retry_single_image (gen : GenFun) (states : StatesMap)
    (task_id : String) (page : Page) (use_reference : Bool)
    (full_outline : String) (user_topic : String) :
    RetryOut × StatesMap × GenCall :=
  let stOpt := dictGet task_id states
  let reference_image : Option Bytes :=
    match stOpt with
    | some st => if use_reference then st.cover_image else none
    | none => none
  let outline : String :=
    match stOpt with
    | some st => if full_outline = "" then st.full_outline else full_outline
    | none => full_outline
  let topic : String :=
    match stOpt with
    | some st => if user_topic = "" then st.user_topic else user_topic
    | none => user_topic
  let uimgs : Option (List Bytes) :=
    match stOpt with
    | some st => st.user_images
    | none => none
  let r := generateSingle gen page reference_image outline uimgs topic
  if r.1.success then
    let fn := r.1.filename.getD ""
    let states' :=
      match dictGet task_id states with
      | some st =>
          dictSet task_id
            { st with generated := dictSet r.1.index fn st.generated,
                      failed := dictDel r.1.index st.failed } states
      | none => states
    (⟨true, r.1.index, some (imageUrl task_id fn), none⟩, states', r.2)
  else
    (⟨false, r.1.index, none, r.1.error⟩, states, r.2)

/-- The reference artifact retained after the cover phase: the cover's
compressed bytes when its generation returned non-empty bytes, nothing
otherwise (in particular nothing on failure). -/
def coverRefOf (gen : GenFun) (cp : Page) : Option Bytes :=
  match gen cp none with
  | .ok b => if b.isEmpty then none else some (compress_image b 200)
  | .error _ => none

/-! ### Claim theorems for the batch scheduler -/
/-- A generator that succeeds on every task. -/
def genAlwaysOk : GenFun := fun _ _ => .ok [1]

/-- Two pages both tagged `"cover"`. -/
def twoCoverPages : List Page :=
  [⟨0, "cover", "a"⟩, ⟨1, "cover", "b"⟩]

/-- A generator that fails on the page of index 2 and succeeds elsewhere. -/
def genFailAt2 : GenFun := fun p _ =>
  if p.index = 2 then .error "quota" else .ok [1]

/-- Three pages: one cover and two content pages. -/
def threePages : List Page :=
  [⟨0, "cover", "a"⟩, ⟨1, "content", "b"⟩, ⟨2, "content", "c"⟩]

/-- A generator returning an *empty* byte string for the cover and
non-empty bytes elsewhere. -/
def genEmptyCover : GenFun := fun p _ =>
  if p.ptype = "cover" then .ok [] else .ok [7]

/-- A generator producing a distinctive artifact for the cover. -/
def genCoverBytes : GenFun := fun p _ =>
  if p.ptype = "cover" then .ok [9, 9] else .ok [7]

/-- A one-run registry with one failed index (3) and a retained cover. -/
def retryStates : StatesMap :=
  [("t1", { pages := threePages
            generated := [(0, "0.png")]
            failed := [(3, "quota")]
            cover_image := some [9]
            full_outline := "o"
            user_images := some [[5]]
            user_topic := "top" })]

/-! ## Theorems -/

/-- Characterization of the step loop when every listed skill always
succeeds: the events are the `(progress, step_complete)` pairs followed by
the successful `finish`, the status is `success`, every skill is called
exactly once in order, and the inputs chain through the outputs. -/
theorem runLoop_all_ok {α v : Type} (pname : String) (runId : Nat) (vars : v)
    (total : Nat) (skills : List (Skill α v))
    (h : ∀ s ∈ skills, AlwaysOk s) :
    ∀ (step0 : Nat) (cur : Option α),
      ((runLoop pname runId vars total skills step0 cur).events.map evSig =
        okStepSigs total (skills.map Skill.name) step0 ++
          [⟨"finish", none, none, none, some true⟩]) ∧
      (runLoop pname runId vars total skills step0 cur).status = .success ∧
      ((runLoop pname runId vars total skills step0 cur).calls.map
          Prod.fst = skills.map Skill.name) ∧
      Chained cur (runLoop pname runId vars total skills step0 cur).calls := by
  induction skills with
  | nil =>
      intro step0 cur
      simp [runLoop, okStepSigs, evSig, finishOkEvent, Chained]
  | cons s rest ih =>
      intro step0 cur
      have hs : ((s.execute cur ⟨pname, step0 + 1, runId, vars⟩).1).success
          = true := h s (by simp) cur _
      have hrest : ∀ t ∈ rest, AlwaysOk t := fun t ht => h t (by simp [ht])
      obtain ⟨ih1, ih2, ih3, ih4⟩ := ih hrest (step0 + 1)
        ((s.execute cur ⟨pname, step0 + 1, runId, vars⟩).1).data
      refine ⟨?_, ?_, ?_, ?_⟩ <;>
        simp [runLoop, hs, okStepSigs, evSig, progressEvent,
          stepCompleteEvent, Chained, ih1, ih2, ih3, ih4]

/-- Characterization of the step loop when the skills are an always-
succeeding block followed by an always-failing skill: the events are the
success pairs of the block, then `progress`, `error` and the failed
`finish` for the failing skill, the status is `failed`, and exactly the
block's skills plus the failing skill are called. -/
theorem runLoop_fail_after {α v : Type} (pname : String) (runId : Nat)
    (vars : v) (total : Nat) (s : Skill α v) (post : List (Skill α v))
    (hs : AlwaysFails s) :
    ∀ (pre : List (Skill α v)), (∀ t ∈ pre, AlwaysOk t) →
      ∀ (step0 : Nat) (cur : Option α),
        ((runLoop pname runId vars total (pre ++ s :: post) step0
            cur).events.map evSig =
          okStepSigs total (pre.map Skill.name) step0 ++
            [⟨"progress", some (step0 + pre.length + 1), some s.name,
                some (progOf (step0 + pre.length + 1) total), none⟩,
              ⟨"error", some (step0 + pre.length + 1), some s.name, none,
                none⟩,
              ⟨"finish", none, none, none, some false⟩]) ∧
        (runLoop pname runId vars total (pre ++ s :: post) step0
            cur).status = .failed ∧
        ((runLoop pname runId vars total (pre ++ s :: post) step0
            cur).calls.map Prod.fst = pre.map Skill.name ++ [s.name]) := by
  intro pre
  induction pre with
  | nil =>
      intro _ step0 cur
      have hfail : ((s.execute cur ⟨pname, step0 + 1, runId, vars⟩).1).success
          = false := hs cur _
      refine ⟨?_, ?_, ?_⟩ <;>
        simp [runLoop, hfail, okStepSigs, evSig, progressEvent, errorEvent,
          finishFailEvent]
  | cons t pre' ih =>
      intro hpre step0 cur
      have ht : ((t.execute cur ⟨pname, step0 + 1, runId, vars⟩).1).success
          = true := hpre t (by simp) cur _
      have hpre' : ∀ u ∈ pre', AlwaysOk u := fun u hu => hpre u (by simp [hu])
      obtain ⟨ih1, ih2, ih3⟩ := ih hpre' (step0 + 1)
        ((t.execute cur ⟨pname, step0 + 1, runId, vars⟩).1).data
      have harith : step0 + 1 + pre'.length + 1 = step0 + (pre'.length + 1) + 1 := by
        omega
      refine ⟨?_, ?_, ?_⟩ <;>
        simp [runLoop, ht, okStepSigs, evSig, progressEvent,
          stepCompleteEvent, harith ▸ ih1, ih2, ih3]

/-! ### Claim theorems for the skill contract and the pipeline state machine -/
/-- C3: for every skill, input and context, `Skill.execute` never raises
(it is a total function into `SkillResult × SkillStatus`): it applies
`pre_run`, `run`, `post_run` in order (`Skill.attempt`), and if any of
them raises it returns `SkillResult(success=False, error=<message>)`
instead of propagating; the status after the call is `success` exactly
when the final result has `success=True` and `failed` otherwise,
including the exception case. -/
theorem skill_execute_never_raises {α v : Type} (s : Skill α v)
    (input : Option α) (ctx : SkillCtx v) :
    (∀ e, s.attempt input ctx = .error e →
      s.execute input ctx =
        ({ success := false, data := none, error := some e,
           metadata := [("skill", s.name)] }, .failed)) ∧
    (∀ r, s.attempt input ctx = .ok r →
      s.execute input ctx = (r, if r.success then .success else .failed)) := by
  constructor <;> intro x hx <;> simp [Skill.execute, hx]

/-- Witness for C3 at a concrete raising skill. -/
theorem skill_execute_never_raises_witness :
    boomSkill.execute (some 5) ⟨"p", 1, 0, ()⟩ =
      ({ success := false, data := none, error := some "boom failure",
         metadata := [("skill", "boom")] }, .failed) :=
  (skill_execute_never_raises boomSkill (some 5) ⟨"p", 1, 0, ()⟩).1
    "boom failure" rfl

/-- C2: for every pipeline whose skills all report success, `run_stream`
yields exactly `start`, then for each step `i = 1..N` a `progress` event
(with fraction `i/N` and the skill's name) followed by `step_complete`,
then one successful `finish`; the final status is `success`; every skill
is called exactly once in order; and the call inputs chain — the first
skill receives the caller's input and each later skill receives the
previous skill's output data. -/
theorem pipeline_all_success_stream {α v : Type} (p : Pipeline α v)
    (input : Option α) (vars : v) (runId : Nat)
    (h : ∀ s ∈ p.skills, AlwaysOk s) :
    ((runStream p input vars runId).events.map evSig =
      ⟨"start", none, none, none, none⟩ ::
        (okStepSigs p.skills.length (p.skills.map Skill.name) 0 ++
          [⟨"finish", none, none, none, some true⟩])) ∧
    (runStream p input vars runId).status = .success ∧
    ((runStream p input vars runId).calls.map Prod.fst =
      p.skills.map Skill.name) ∧
    Chained input (runStream p input vars runId).calls := by
  obtain ⟨h1, h2, h3, h4⟩ :=
    runLoop_all_ok p.name runId vars p.skills.length p.skills h 0 input
  exact ⟨by simp [runStream, evSig, startEvent, h1], by simp [runStream, h2],
    by simp [runStream, h3], by simpa [runStream] using h4⟩

/-- Witness for C2 at a concrete two-skill pipeline. -/
theorem pipeline_all_success_stream_witness :
    (runStream ⟨"demo", [stepSkill "a", stepSkill "b"]⟩ (some 0) () 7).status
        = .success ∧
    Chained (some 0)
      (runStream ⟨"demo", [stepSkill "a", stepSkill "b"]⟩ (some 0) () 7).calls := by
  have h : ∀ s ∈ [stepSkill "a", stepSkill "b"], AlwaysOk s := by
    intro s hs
    rcases List.mem_cons.mp hs with h1 | hs'
    · subst h1; intro input ctx; cases input <;> rfl
    · rcases List.mem_cons.mp hs' with h2 | h3
      · subst h2; intro input ctx; cases input <;> rfl
      · cases h3
  have := pipeline_all_success_stream
    ⟨"demo", [stepSkill "a", stepSkill "b"]⟩ (some 0) () 7 h
  exact ⟨this.2.1, this.2.2.2⟩

/-- C1: for every pipeline whose skill list is an always-succeeding block
`pre` (&nbsp;`k − 1` skills), a failing skill `s` at position
`k = pre.length + 1`, and an arbitrary tail `post`, `run_stream` yields
exactly `start`, the `(progress, step_complete)` pairs of the `k − 1`
successful steps, then `progress(k)`, `error(k)` and a `finish` with
`success=false`; the final status is `failed`; and the skills whose
`execute` is called are exactly `pre` plus `s` — no skill after position
`k` runs.  `run_stream` itself is a total Lean function, so it never
raises to its caller. -/
theorem pipeline_failure_stops {α v : Type} (pname : String)
    (pre post : List (Skill α v)) (s : Skill α v) (input : Option α)
    (vars : v) (runId : Nat)
    (hpre : ∀ t ∈ pre, AlwaysOk t) (hs : AlwaysFails s) :
    ((runStream ⟨pname, pre ++ s :: post⟩ input vars runId).events.map evSig =
      ⟨"start", none, none, none, none⟩ ::
        (okStepSigs (pre ++ s :: post).length (pre.map Skill.name) 0 ++
          [⟨"progress", some (pre.length + 1), some s.name,
              some (progOf (pre.length + 1) (pre ++ s :: post).length), none⟩,
            ⟨"error", some (pre.length + 1), some s.name, none, none⟩,
            ⟨"finish", none, none, none, some false⟩])) ∧
    (runStream ⟨pname, pre ++ s :: post⟩ input vars runId).status = .failed ∧
    ((runStream ⟨pname, pre ++ s :: post⟩ input vars runId).calls.map
        Prod.fst = pre.map Skill.name ++ [s.name]) := by
  obtain ⟨h1, h2, h3⟩ := runLoop_fail_after pname runId vars
    (pre ++ s :: post).length s post hs pre hpre 0 input
  refine ⟨?_, by simpa [runStream] using h2, by simpa [runStream] using h3⟩
  simp only [runStream, List.map_cons, h1]
  simp [evSig, startEvent]

/-- Witness for C1: step 2 of 3 fails; only skills `a` and `broken` run
and the status is `failed`. -/
theorem pipeline_failure_stops_witness :
    (runStream ⟨"demo", [stepSkill "a", brokenSkill, stepSkill "c"]⟩
        (some 0) () 7).status = .failed ∧
    ((runStream ⟨"demo", [stepSkill "a", brokenSkill, stepSkill "c"]⟩
        (some 0) () 7).calls.map Prod.fst = ["a", "broken"]) := by
  have hpre : ∀ t ∈ [stepSkill "a"], AlwaysOk t := by
    intro t ht
    rcases List.mem_cons.mp ht with h1 | h2
    · subst h1; intro input ctx; cases input <;> rfl
    · cases h2
  have hs : AlwaysFails brokenSkill := by
    intro input ctx; cases input <;> rfl
  have := pipeline_failure_stops "demo" [stepSkill "a"] [stepSkill "c"]
    brokenSkill (some 0) () 7 hpre hs
  exact ⟨this.2.1, this.2.2⟩

/-- C9: running `run_stream` on a pipeline with an empty skill list yields
exactly two events — `start` with `total_steps = 0` and a `finish` with
`success=true` whose data is the caller's input unchanged — and the final
status is `success` (no skill is ever called). -/
theorem empty_pipeline_two_events {α v : Type} (pname : String)
    (input : Option α) (vars : v) (runId : Nat) :
    runStream (⟨pname, []⟩ : Pipeline α v) input vars runId =
      ⟨[startEvent pname 0 runId, finishOkEvent 0 input], .success, [],
        input⟩ := rfl

/-- On an open channel of positive capacity `C` whose queue holds at most
`C` events, publishing a list of events always returns `True`, and the
resulting queue is the last `C` elements of the old queue followed by the
published events. -/
theorem publishAll_open {C : Nat} (hC : 0 < C) (cid : String)
    (subs : List String) :
    ∀ (es q : List Event), q.length ≤ C →
      (∀ b ∈ (publishAll ⟨cid, C, q, false, subs⟩ es).1, b = true) ∧
      (publishAll ⟨cid, C, q, false, subs⟩ es).2 =
        ⟨cid, C, (q ++ es).drop (q.length + es.length - C), false, subs⟩ := by
  intro es
  induction es with
  | nil =>
      intro q hq
      have h0 : q.length - C = 0 := by omega
      simp [publishAll, h0]
  | cons e rest ih =>
      intro q hq
      by_cases hfull : C ≤ q.length
      · have hqC : q.length = C := le_antisymm hq hfull
        have hqne : q ≠ [] := by
          intro h
          rw [h] at hqC
          simp at hqC
          omega
        obtain ⟨a, q', rfl⟩ := List.exists_cons_of_ne_nil hqne
        have hq'len : q'.length + 1 = C := by simpa using hqC
        have hfullb : queueFull C (a :: q') = true := by
          simp only [queueFull, Bool.and_eq_true, decide_eq_true_eq,
            List.length_cons]
          omega
        have hnotfull : queueFull C q' = false := by
          simp only [queueFull, Bool.and_eq_false_iff,
            decide_eq_false_iff_not, not_lt, not_le]
          omega
        have hq' : (q' ++ [e]).length ≤ C := by
          simp only [List.length_append, List.length_cons, List.length_nil]
          omega
        obtain ⟨ih1, ih2⟩ := ih (q' ++ [e]) hq'
        constructor
        · intro b hb
          simp only [publishAll, SSEChannel.publish] at hb
          simp only [hfullb, if_true, List.drop_one, List.tail_cons,
            hnotfull, Bool.false_eq_true, if_false] at hb
          rcases List.mem_cons.mp hb with h1 | h2
          · exact h1
          · exact ih1 b h2
        · simp only [publishAll, SSEChannel.publish]
          simp only [hfullb, if_true, List.drop_one, List.tail_cons,
            hnotfull, Bool.false_eq_true, if_false]
          rw [ih2]
          congr 1
          have hL : q' ++ [e] ++ rest = q' ++ e :: rest := by simp
          have hc1 : (q' ++ [e]).length + rest.length - C = rest.length := by
            simp only [List.length_append, List.length_cons, List.length_nil]
            omega
          have hc2 : (a :: q').length + (e :: rest).length - C
              = rest.length + 1 := by
            simp only [List.length_cons]
            omega
          rw [hL, hc1, hc2, List.cons_append, List.drop_succ_cons]
      · have hnotfull : queueFull C q = false := by
          simp only [queueFull, Bool.and_eq_false_iff,
            decide_eq_false_iff_not, not_lt, not_le]
          omega
        have hq' : (q ++ [e]).length ≤ C := by
          simp only [List.length_append, List.length_cons, List.length_nil]
          omega
        obtain ⟨ih1, ih2⟩ := ih (q ++ [e]) hq'
        constructor
        · intro b hb
          simp only [publishAll, SSEChannel.publish] at hb
          simp only [hnotfull, Bool.false_eq_true, if_false] at hb
          rcases List.mem_cons.mp hb with h1 | h2
          · exact h1
          · exact ih1 b h2
        · simp only [publishAll, SSEChannel.publish]
          simp only [hnotfull, Bool.false_eq_true, if_false]
          rw [ih2]
          congr 1
          have hL : q ++ [e] ++ rest = q ++ e :: rest := by simp
          have hc : (q ++ [e]).length + rest.length - C
              = q.length + (e :: rest).length - C := by
            simp only [List.length_append, List.length_cons, List.length_nil]
            omega
          rw [hL, hc]

/-- C6: on a fresh open `SSEChannel` of capacity `C ≥ 1` (in Python's
queue convention `max_size = 0` would mean *unbounded*, so a channel "of
capacity `C`" has `C ≥ 1`), publishing `C + 1` events: every `publish`
returns `True` (non-blocking, no exception escapes), after every prefix
of the publishes the queue length is at most `C`, and a final
`get_events` drain yields exactly the last `C` published events in
publication order — the oldest is evicted. -/
theorem sse_overflow_evicts_oldest (C : Nat) (cid : String)
    (es : List Event) (hC : 0 < C) (hlen : es.length = C + 1) :
    (∀ b ∈ (publishAll ⟨cid, C, [], false, []⟩ es).1, b = true) ∧
    (∀ n, ((publishAll ⟨cid, C, [], false, []⟩ (es.take n)).2).queue.length
        ≤ C) ∧
    ((publishAll ⟨cid, C, [], false, []⟩ es).2.get_events).1 = es.drop 1 := by
  refine ⟨(publishAll_open hC cid [] es [] (by simp)).1, ?_, ?_⟩
  · intro n
    have h := (publishAll_open hC cid [] (es.take n) [] (by simp)).2
    rw [h]
    simp only [SSEChannel.get_events, List.nil_append, List.length_nil,
      Nat.zero_add, List.length_drop]
    omega
  · have h := (publishAll_open hC cid [] es [] (by simp)).2
    rw [h]
    simp [SSEChannel.get_events, hlen]

/-- Witness for C6 at capacity 2 with three events: the drain yields the
last two. -/
theorem sse_overflow_evicts_oldest_witness :
    ((publishAll ⟨"ch", 2, [], false, []⟩ [evA, evB, evC]).2.get_events).1 =
      [evB, evC] :=
  (sse_overflow_evicts_oldest 2 "ch" [evA, evB, evC] (by decide)
    (by decide)).2.2

/-- C10: publishing on a closed `SSEChannel` returns `False` and leaves the
channel — in particular its queue — unchanged: nothing is enqueued and
nothing is evicted. -/
theorem closed_channel_publish_noop (c : SSEChannel) (e : Event)
    (h : c.closed = true) : c.publish e = (false, c) := by
  simp [SSEChannel.publish, h]

/-- Witness for C10 at a concrete closed channel holding one event. -/
theorem closed_channel_publish_noop_witness :
    SSEChannel.publish ⟨"ch", 2, [evA], true, []⟩ evB =
      (false, ⟨"ch", 2, [evA], true, []⟩) :=
  closed_channel_publish_noop ⟨"ch", 2, [evA], true, []⟩ evB rfl

/-- C8: from any process state, two successive `get_event_bus()` calls
return the same `EventBus` object — in particular the same emitter
instance and the same channel registry. -/
theorem event_bus_singleton (w : BusWorld) :
    (get_event_bus (get_event_bus w).2).1 = (get_event_bus w).1 ∧
    ((get_event_bus (get_event_bus w).2).1).emitter =
      ((get_event_bus w).1).emitter ∧
    ((get_event_bus (get_event_bus w).2).1).channels =
      ((get_event_bus w).1).channels := by
  cases h : w.stored <;> simp [get_event_bus, eventBusNew, h]

/-! ### Supporting lemmas for the scheduler -/
/-- The outcome tuple always carries the page's own index. -/
@[simp] theorem generateSingle_index (gen : GenFun) (p : Page)
    (ref : Option Bytes) (o : String) (u : Option (List Bytes)) (t : String) :
    ((generateSingle gen p ref o u t).1).index = p.index := by
  cases h : gen p ref <;> simp [generateSingle, h]

/-- Filtering a mapped list is mapping the filtered list. -/
theorem map_filter_comm {A B : Type} (f : A → B) (q : B → Bool) :
    ∀ l : List A, (l.map f).filter q = (l.filter (fun a => q (f a))).map f := by
  intro l
  induction l with
  | nil => rfl
  | cons a l ih =>
      by_cases h : q (f a) = true <;>
        simp [List.filter_cons, h, ih]

/-- A Bool filter and its negation split the length of a list. -/
theorem filter_length_split {A : Type} (q : A → Bool) :
    ∀ l : List A,
      (l.filter q).length + (l.filter (fun a => !q a)).length = l.length := by
  intro l
  induction l with
  | nil => rfl
  | cons a l ih =>
      by_cases h : q a = true <;>
        simp [List.filter_cons, h, ← ih] <;> omega

/-- Characterization of the sequential content loop: it produces exactly
one outcome and one generator call per page, in order; the accumulated
image list is extended by the filenames of the successful pages and the
failed-page list by the failing pages; the retained `cover_image` of the
task state is untouched. -/
theorem contentLoop_spec (gen : GenFun) (taskId : String)
    (coverRef : Option Bytes) (outline : String)
    (uimgs : Option (List Bytes)) (topic : String) :
    ∀ (ps : List Page) (first : Bool) (st : TaskState) (imgs : List String)
      (fpages : List Page),
      (contentLoop gen taskId coverRef outline uimgs topic ps first st imgs
          fpages).outcomes =
        ps.map (fun p =>
          (generateSingle gen p coverRef outline uimgs topic).1) ∧
      (contentLoop gen taskId coverRef outline uimgs topic ps first st imgs
          fpages).calls =
        ps.map (fun p =>
          (generateSingle gen p coverRef outline uimgs topic).2) ∧
      (contentLoop gen taskId coverRef outline uimgs topic ps first st imgs
          fpages).images =
        imgs ++ (ps.filter (fun p =>
            ((generateSingle gen p coverRef outline uimgs topic).1).success)).map
          (fun p =>
            ((generateSingle gen p coverRef outline uimgs topic).1).filename.getD "") ∧
      (contentLoop gen taskId coverRef outline uimgs topic ps first st imgs
          fpages).failedPages =
        fpages ++ ps.filter (fun p =>
          !((generateSingle gen p coverRef outline uimgs topic).1).success) ∧
      ((contentLoop gen taskId coverRef outline uimgs topic ps first st imgs
          fpages).state).cover_image = st.cover_image := by
  intro ps
  induction ps with
  | nil => intro first st imgs fpages; simp [contentLoop]
  | cons p rest ih =>
      intro first st imgs fpages
      by_cases h : ((generateSingle gen p coverRef outline uimgs topic).1).success = true
      · refine ⟨?_, ?_, ?_, ?_, ?_⟩ <;>
          simp [contentLoop, h, List.filter_cons, ih]
      · refine ⟨?_, ?_, ?_, ?_, ?_⟩ <;>
          simp [contentLoop, h, List.filter_cons, ih,
            Bool.not_eq_true]

/-- If no page is tagged `"cover"`, the cover-selection loop selects
nothing and keeps every page. -/
theorem coverScan_none :
    ∀ ps : List Page, (∀ p ∈ ps, ¬ p.ptype = "cover") →
      coverScan ps = (none, ps) := by
  intro ps
  induction ps with
  | nil => intro _; rfl
  | cons p rest ih =>
      intro h
      have hp : ¬ p.ptype = "cover" := h p (by simp)
      have hrest := ih (fun q hq => h q (by simp [hq]))
      simp [coverScan, hp, hrest]

/-- If exactly one page is tagged `"cover"`, the cover-selection loop
selects it and keeps the others, up to permutation (and, in fact, in
order). -/
theorem coverScan_single :
    ∀ ps : List Page,
      (ps.filter (fun p => decide (p.ptype = "cover"))).length = 1 →
      ∃ c o, coverScan ps = (some c, o) ∧ (c :: o).Perm ps := by
  intro ps
  induction ps with
  | nil => intro h; simp at h
  | cons p rest ih =>
      intro h
      by_cases hp : p.ptype = "cover"
      · have hfil : (p :: rest).filter (fun q => decide (q.ptype = "cover")) =
            p :: rest.filter (fun q => decide (q.ptype = "cover")) := by
          simp [List.filter_cons, hp]
        rw [hfil] at h
        simp only [List.length_cons] at h
        have hrest : rest.filter (fun q => decide (q.ptype = "cover")) = [] :=
          List.length_eq_zero.mp (by omega)
        have hnone := coverScan_none rest (by
          intro q hq hqc
          have : q ∈ rest.filter (fun q => decide (q.ptype = "cover")) := by
            simp [List.mem_filter, hq, hqc]
          rw [hrest] at this
          cases this)
        exact ⟨p, rest, by simp [coverScan, hp, hnone], List.Perm.refl _⟩
      · have hrest : (rest.filter (fun q => decide (q.ptype = "cover"))).length = 1 := by
          simpa [List.filter_cons, hp] using h
        obtain ⟨c, o, hscan, hperm⟩ := ih hrest
        exact ⟨c, p :: o, by simp [coverScan, hp, hscan],
          (List.Perm.swap p c o).trans (hperm.cons p)⟩

/-- With at most one `"cover"`-tagged page and a non-empty page list,
`splitCover` selects a cover page and the remaining pages are, together
with it, a permutation of the input (nothing is dropped). -/
theorem splitCover_characterization (pages : List Page)
    (hne : pages ≠ [])
    (hcov : (pages.filter (fun p => decide (p.ptype = "cover"))).length ≤ 1) :
    ∃ c o, splitCover pages = (some c, o) ∧ (c :: o).Perm pages := by
  rcases Nat.le_one_iff_eq_zero_or_eq_one.mp hcov with h0 | h1
  · have hnil : pages.filter (fun p => decide (p.ptype = "cover")) = [] :=
      List.length_eq_zero.mp h0
    have hnone := coverScan_none pages (by
      intro q hq hqc
      have : q ∈ pages.filter (fun p => decide (p.ptype = "cover")) := by
        simp [List.mem_filter, hq, hqc]
      rw [hnil] at this
      cases this)
    obtain ⟨p, rest, rfl⟩ := List.exists_cons_of_ne_nil hne
    exact ⟨p, rest, by simp [splitCover, hnone], List.Perm.refl _⟩
  · obtain ⟨c, o, hscan, hperm⟩ := coverScan_single pages h1
    exact ⟨c, o, by simp [splitCover, hscan], hperm⟩

/-- Projection of `contentLoop_spec`: the outcome trace. -/
theorem contentLoop_outcomes (gen : GenFun) (taskId : String)
    (coverRef : Option Bytes) (outline : String)
    (uimgs : Option (List Bytes)) (topic : String) (ps : List Page)
    (first : Bool) (st : TaskState) (imgs : List String)
    (fpages : List Page) :
    (contentLoop gen taskId coverRef outline uimgs topic ps first st imgs
        fpages).outcomes =
      ps.map (fun p =>
        (generateSingle gen p coverRef outline uimgs topic).1) :=
  (contentLoop_spec gen taskId coverRef outline uimgs topic ps first st
    imgs fpages).1

/-- Projection of `contentLoop_spec`: the call trace. -/
theorem contentLoop_calls (gen : GenFun) (taskId : String)
    (coverRef : Option Bytes) (outline : String)
    (uimgs : Option (List Bytes)) (topic : String) (ps : List Page)
    (first : Bool) (st : TaskState) (imgs : List String)
    (fpages : List Page) :
    (contentLoop gen taskId coverRef outline uimgs topic ps first st imgs
        fpages).calls =
      ps.map (fun p =>
        (generateSingle gen p coverRef outline uimgs topic).2) :=
  (contentLoop_spec gen taskId coverRef outline uimgs topic ps first st
    imgs fpages).2.1

/-- Projection of `contentLoop_spec`: the accumulated image list. -/
theorem contentLoop_images (gen : GenFun) (taskId : String)
    (coverRef : Option Bytes) (outline : String)
    (uimgs : Option (List Bytes)) (topic : String) (ps : List Page)
    (first : Bool) (st : TaskState) (imgs : List String)
    (fpages : List Page) :
    (contentLoop gen taskId coverRef outline uimgs topic ps first st imgs
        fpages).images =
      imgs ++ (ps.filter (fun p =>
          ((generateSingle gen p coverRef outline uimgs topic).1).success)).map
        (fun p =>
          ((generateSingle gen p coverRef outline uimgs topic).1).filename.getD "") :=
  (contentLoop_spec gen taskId coverRef outline uimgs topic ps first st
    imgs fpages).2.2.1

/-- Projection of `contentLoop_spec`: the accumulated failed pages. -/
theorem contentLoop_failedPages (gen : GenFun) (taskId : String)
    (coverRef : Option Bytes) (outline : String)
    (uimgs : Option (List Bytes)) (topic : String) (ps : List Page)
    (first : Bool) (st : TaskState) (imgs : List String)
    (fpages : List Page) :
    (contentLoop gen taskId coverRef outline uimgs topic ps first st imgs
        fpages).failedPages =
      fpages ++ ps.filter (fun p =>
        !((generateSingle gen p coverRef outline uimgs topic).1).success) :=
  (contentLoop_spec gen taskId coverRef outline uimgs topic ps first st
    imgs fpages).2.2.2.1

/-- Projection of `contentLoop_spec`: the retained reference artifact is
untouched by the content phase. -/
theorem contentLoop_cover_image (gen : GenFun) (taskId : String)
    (coverRef : Option Bytes) (outline : String)
    (uimgs : Option (List Bytes)) (topic : String) (ps : List Page)
    (first : Bool) (st : TaskState) (imgs : List String)
    (fpages : List Page) :
    ((contentLoop gen taskId coverRef outline uimgs topic ps first st imgs
        fpages).state).cover_image = st.cover_image :=
  (contentLoop_spec gen taskId coverRef outline uimgs topic ps first st
    imgs fpages).2.2.2.2

/-- Full characterization of one sequential batch run whose page list
splits into a cover page `cp` and content pages `others`: the outcome and
call traces (one entry per scheduled task, cover first, every content
call carrying `coverRefOf gen cp` as its reference), the final `finish`
event with its image list and failed pages, and the retained
`cover_image`. -/
theorem genRunStream_spec (gen : GenFun) (inp : GenerateImageInput)
    (tid : String) (cp : Page) (others : List Page)
    (hne : inp.pages ≠ [])
    (hsplit : splitCover inp.pages = (some cp, others)) :
    (genRunStream gen inp tid).outcomes =
      (generateSingle gen cp none inp.full_outline
          (compressUserImages inp.user_images) inp.user_topic).1 ::
        others.map (fun p => (generateSingle gen p (coverRefOf gen cp)
          inp.full_outline (compressUserImages inp.user_images)
          inp.user_topic).1) ∧
    (genRunStream gen inp tid).calls =
      ⟨cp, none, inp.full_outline, compressUserImages inp.user_images,
          inp.user_topic⟩ ::
        others.map (fun p => ⟨p, coverRefOf gen cp, inp.full_outline,
          compressUserImages inp.user_images, inp.user_topic⟩) ∧
    (genRunStream gen inp tid).events.getLast? =
      some (finishEvent tid inp.pages.length
        ((if ((generateSingle gen cp none inp.full_outline
              (compressUserImages inp.user_images) inp.user_topic).1).success
          then [((generateSingle gen cp none inp.full_outline
              (compressUserImages inp.user_images)
              inp.user_topic).1).filename.getD ""]
          else []) ++
          (others.filter (fun p => ((generateSingle gen p (coverRefOf gen cp)
              inp.full_outline (compressUserImages inp.user_images)
              inp.user_topic).1).success)).map
            (fun p => ((generateSingle gen p (coverRefOf gen cp)
              inp.full_outline (compressUserImages inp.user_images)
              inp.user_topic).1).filename.getD ""))
        ((if ((generateSingle gen cp none inp.full_outline
              (compressUserImages inp.user_images) inp.user_topic).1).success
          then [] else [cp]) ++
          others.filter (fun p => !((generateSingle gen p (coverRefOf gen cp)
            inp.full_outline (compressUserImages inp.user_images)
            inp.user_topic).1).success))) ∧
    (∃ stf, (genRunStream gen inp tid).state = some stf ∧
        stf.cover_image = coverRefOf gen cp) := by
  cases hgen : gen cp none with
  | ok b =>
      by_cases hb : b.isEmpty = true
      · refine ⟨?_, ?_, ?_, ?_⟩
        · simp [genRunStream, hne, hsplit, generateSingle, hgen, coverRefOf,
            hb, contentLoop_outcomes]
        · simp [genRunStream, hne, hsplit, generateSingle, hgen, coverRefOf,
            hb, contentLoop_calls]
        · simp [genRunStream, hne, hsplit, generateSingle, hgen, coverRefOf,
            hb, contentLoop_images, contentLoop_failedPages, finishEvent]
          simp only [← List.append_assoc, ← List.cons_append,
            List.getLast?_concat]
        · simp [genRunStream, hne, hsplit, generateSingle, hgen, coverRefOf,
            hb, contentLoop_cover_image]
      · refine ⟨?_, ?_, ?_, ?_⟩
        · simp [genRunStream, hne, hsplit, generateSingle, hgen, coverRefOf,
            hb, contentLoop_outcomes]
        · simp [genRunStream, hne, hsplit, generateSingle, hgen, coverRefOf,
            hb, contentLoop_calls]
        · simp [genRunStream, hne, hsplit, generateSingle, hgen, coverRefOf,
            hb, contentLoop_images, contentLoop_failedPages, finishEvent]
          simp only [← List.append_assoc, ← List.cons_append,
            List.getLast?_concat]
        · simp [genRunStream, hne, hsplit, generateSingle, hgen, coverRefOf,
            hb, contentLoop_cover_image]
  | error e =>
      refine ⟨?_, ?_, ?_, ?_⟩
      · simp [genRunStream, hne, hsplit, generateSingle, hgen, coverRefOf,
          contentLoop_outcomes]
      · simp [genRunStream, hne, hsplit, generateSingle, hgen, coverRefOf,
          contentLoop_calls]
      · simp [genRunStream, hne, hsplit, generateSingle, hgen, coverRefOf,
          contentLoop_images, contentLoop_failedPages, finishEvent]
        simp only [← List.append_assoc, ← List.cons_append,
          List.getLast?_concat]
      · simp [genRunStream, hne, hsplit, generateSingle, hgen, coverRefOf,
          contentLoop_cover_image]

/-- Mapping outcomes back to their indices recovers the page indices. -/
theorem outcomes_index_map (gen : GenFun) (ref : Option Bytes) (o : String)
    (u : Option (List Bytes)) (t : String) :
    ∀ ps : List Page,
      (ps.map (fun p => (generateSingle gen p ref o u t).1)).map
        GenOutcome.index = ps.map Page.index := by
  intro ps
  induction ps with
  | nil => rfl
  | cons p rest ih => simp [ih]

/-- Counterexample to C4 as stated: with two pages tagged `"cover"` and an
always-succeeding generator, the cover-selection loop keeps only the last
cover page and silently drops the first, so only one task yields an
outcome, and the finish event reports `completed = 1`, `failed = 0` on a
2-page batch — `completed + failed ≠ N` — while claiming `success=true`
although the task of index 0 was never attempted. -/
theorem batch_multi_cover_counterexample :
    (genRunStream genAlwaysOk ⟨twoCoverPages, "", none, ""⟩ "t").events.getLast?
        = some (.finish true "t" ["1.png"] 2 1 0 []) ∧
    ((genRunStream genAlwaysOk ⟨twoCoverPages, "", none, ""⟩ "t").outcomes.map
        GenOutcome.index = [1]) ∧
    1 + 0 ≠ twoCoverPages.length := by
  refine ⟨?_, ?_, ?_⟩ <;> decide

/-- C4 (amended: restricted to page lists in which at most one page
carries the reference tag `"cover"`, since with several the
cover-selection loop drops all but the last): every task yields exactly
one outcome — the outcome indices are a permutation of the page indices —
a per-task failure never stops the batch, and the finish event reports
`completed` and `failed` counts with `completed + failed = N`, the list
of failed indices, and `success=true` iff every task succeeded. -/
theorem batch_aggregate_outcomes (gen : GenFun) (inp : GenerateImageInput)
    (tid : String) (hne : inp.pages ≠ [])
    (hcov : (inp.pages.filter (fun p => decide (p.ptype = "cover"))).length
      ≤ 1) :
    ((genRunStream gen inp tid).outcomes.map GenOutcome.index).Perm
        (inp.pages.map Page.index) ∧
    (∃ sflag imgs comp fl fidx,
      (genRunStream gen inp tid).events.getLast? =
        some (.finish sflag tid imgs inp.pages.length comp fl fidx) ∧
      comp + fl = inp.pages.length ∧
      comp = ((genRunStream gen inp tid).outcomes.filter
          (fun oc => oc.success)).length ∧
      fl = ((genRunStream gen inp tid).outcomes.filter
          (fun oc => !oc.success)).length ∧
      fidx = (((genRunStream gen inp tid).outcomes.filter
          (fun oc => !oc.success)).map GenOutcome.index) ∧
      (sflag = true ↔ ∀ oc ∈ (genRunStream gen inp tid).outcomes,
          oc.success = true)) := by
  obtain ⟨cp, others, hsplit, hperm⟩ :=
    splitCover_characterization inp.pages hne hcov
  obtain ⟨ho, hc, he, hst⟩ :=
    genRunStream_spec gen inp tid cp others hne hsplit
  have hlen := hperm.length_eq
  simp only [List.length_cons] at hlen
  have hfls := filter_length_split (fun p =>
    ((generateSingle gen p (coverRefOf gen cp) inp.full_outline
      (compressUserImages inp.user_images) inp.user_topic).1).success) others
  constructor
  · rw [ho]
    simp only [List.map_cons, generateSingle_index, outcomes_index_map]
    simpa using hperm.map Page.index
  · refine ⟨_, _, _, _, _, by rw [he]; rfl, ?_, ?_, ?_, ?_, ?_⟩
    · by_cases hcs : ((generateSingle gen cp none inp.full_outline
          (compressUserImages inp.user_images) inp.user_topic).1).success
          = true <;>
        simp [hcs] <;> omega
    · by_cases hcs : ((generateSingle gen cp none inp.full_outline
          (compressUserImages inp.user_images) inp.user_topic).1).success
          = true <;>
        simp [ho, hcs, List.filter_cons, map_filter_comm]
    · by_cases hcs : ((generateSingle gen cp none inp.full_outline
          (compressUserImages inp.user_images) inp.user_topic).1).success
          = true <;>
        simp [ho, hcs, List.filter_cons, map_filter_comm]
    · by_cases hcs : ((generateSingle gen cp none inp.full_outline
          (compressUserImages inp.user_images) inp.user_topic).1).success
          = true <;>
        simp [ho, hcs, List.filter_cons, map_filter_comm, List.map_map,
          Function.comp]
    · by_cases hcs : ((generateSingle gen cp none inp.full_outline
          (compressUserImages inp.user_images) inp.user_topic).1).success
          = true <;>
        simp [ho, hcs, List.filter_cons, List.filter_eq_nil_iff,
          Bool.not_eq_true]

/-- Witness for C4 at a concrete batch where the last task fails: the
outcome indices are a permutation of the page indices. -/
theorem batch_aggregate_outcomes_witness :
    ((genRunStream genFailAt2 ⟨threePages, "", none, ""⟩ "t").outcomes.map
        GenOutcome.index).Perm (threePages.map Page.index) :=
  (batch_aggregate_outcomes genFailAt2 ⟨threePages, "", none, ""⟩ "t"
    (by decide) (by decide)).1

/-- Counterexample to C5 as stated: the cover generation *succeeds* (both
tasks report success and the run finishes with `success=true`), yet the
subsequent content call receives *no* reference input, because the code
guards the retention with the truthiness check `if cover_bytes:` and the
returned artifact is empty.  The claim, quantifying over every batch run
whose reference generation succeeds, requires the call for page 1 to
carry the compressed cover artifact. -/
theorem reference_empty_artifact_counterexample :
    ((genRunStream genEmptyCover
        ⟨[⟨0, "cover", "a"⟩, ⟨1, "content", "b"⟩], "", none, ""⟩ "t").outcomes.map
      GenOutcome.success = [true, true]) ∧
    ((genRunStream genEmptyCover
        ⟨[⟨0, "cover", "a"⟩, ⟨1, "content", "b"⟩], "", none, ""⟩ "t").calls.map
      GenCall.reference_image = [none, none]) ∧
    ((genRunStream genEmptyCover
        ⟨[⟨0, "cover", "a"⟩, ⟨1, "content", "b"⟩], "", none, ""⟩ "t").state.map
      TaskState.cover_image = some none) := by
  refine ⟨?_, ?_, ?_⟩ <;> decide

/-- C5 (amended: the reference is retained and propagated when the cover
generation succeeds *with a non-empty artifact*; an empty successful
artifact is discarded by the `if cover_bytes:` truthiness guard, see the
counterexample): if the cover task's generation returns non-empty bytes
`b`, then `compress_image b 200` — of size bounded by `200 * 1024` — is
retained as the run's `cover_image` and passed as the reference input of
the generation call of every subsequent task; if the cover generation
fails, every subsequent task is still attempted, each with no reference
input, the batch is not aborted, and it still reaches its finish event. -/
theorem reference_propagation (gen : GenFun) (inp : GenerateImageInput)
    (tid : String) (cp : Page) (others : List Page)
    (hne : inp.pages ≠ [])
    (hsplit : splitCover inp.pages = (some cp, others)) :
    (∀ b, gen cp none = .ok b → b ≠ [] →
      ((genRunStream gen inp tid).calls =
        ⟨cp, none, inp.full_outline, compressUserImages inp.user_images,
            inp.user_topic⟩ ::
          others.map (fun p => ⟨p, some (compress_image b 200),
            inp.full_outline, compressUserImages inp.user_images,
            inp.user_topic⟩)) ∧
      (∃ stf, (genRunStream gen inp tid).state = some stf ∧
          stf.cover_image = some (compress_image b 200)) ∧
      (compress_image b 200).length ≤ 200 * 1024) ∧
    (∀ e, gen cp none = .error e →
      ((genRunStream gen inp tid).calls =
        ⟨cp, none, inp.full_outline, compressUserImages inp.user_images,
            inp.user_topic⟩ ::
          others.map (fun p => ⟨p, none, inp.full_outline,
            compressUserImages inp.user_images, inp.user_topic⟩)) ∧
      ((genRunStream gen inp tid).events.getLast?).isSome = true) := by
  obtain ⟨ho, hc, he, hst⟩ :=
    genRunStream_spec gen inp tid cp others hne hsplit
  constructor
  · intro b hb hbne
    have href : coverRefOf gen cp = some (compress_image b 200) := by
      simp [coverRefOf, hb, List.isEmpty_iff, hbne]
    refine ⟨by rw [hc, href], ?_, ?_⟩
    · obtain ⟨stf, h1, h2⟩ := hst
      exact ⟨stf, h1, by rw [h2, href]⟩
    · simp [compress_image]
  · intro e hb
    have href : coverRefOf gen cp = none := by
      simp [coverRefOf, hb]
    exact ⟨by rw [hc, href], by rw [he]; rfl⟩

/-- Witness for C5: on a concrete three-page batch whose cover succeeds
with bytes `[9, 9]`, both content calls receive `compress_image [9, 9]
200` as reference. -/
theorem reference_propagation_witness :
    (genRunStream genCoverBytes ⟨threePages, "o", none, "top"⟩ "t").calls =
      ⟨⟨0, "cover", "a"⟩, none, "o", none, "top"⟩ ::
        [⟨⟨1, "content", "b"⟩, some (compress_image [9, 9] 200), "o", none,
            "top"⟩,
          ⟨⟨2, "content", "c"⟩, some (compress_image [9, 9] 200), "o", none,
            "top"⟩] :=
  ((reference_propagation genCoverBytes ⟨threePages, "o", none, "top"⟩ "t"
      ⟨0, "cover", "a"⟩ [⟨1, "content", "b"⟩, ⟨2, "content", "c"⟩]
      (by decide) (by decide)).1 [9, 9] rfl (by decide)).1

/-! ### Dictionary frame lemmas and the retry-one claim -/
/-- Lookup after insert-or-replace at the same key. -/
theorem dictGet_set_self {κ ν : Type} [DecidableEq κ] (k : κ) (v' : ν) :
    ∀ l : List (κ × ν), dictGet k (dictSet k v' l) = some v' := by
  intro l
  induction l with
  | nil => simp [dictSet, dictGet]
  | cons kv rest ih =>
      obtain ⟨k', w⟩ := kv
      by_cases h : k' = k <;> simp [dictSet, dictGet, h, ih]

/-- Lookup after insert-or-replace at a different key. -/
theorem dictGet_set_ne {κ ν : Type} [DecidableEq κ] (j k : κ) (v' : ν)
    (hjk : j ≠ k) :
    ∀ l : List (κ × ν), dictGet j (dictSet k v' l) = dictGet j l := by
  intro l
  induction l with
  | nil => simp [dictSet, dictGet, Ne.symm hjk]
  | cons kv rest ih =>
      obtain ⟨k', w⟩ := kv
      by_cases h : k' = k
      · subst h
        simp [dictSet, dictGet, Ne.symm hjk]
      · simp [dictSet, dictGet, h, ih]

/-- Lookup after deletion at a different key. -/
theorem dictGet_del_ne {κ ν : Type} [DecidableEq κ] (j k : κ)
    (hjk : j ≠ k) :
    ∀ l : List (κ × ν), dictGet j (dictDel k l) = dictGet j l := by
  intro l
  induction l with
  | nil => simp [dictDel]
  | cons kv rest ih =>
      obtain ⟨k', w⟩ := kv
      by_cases h : k' = k
      · subst h
        simp [dictDel, dictGet, Ne.symm hjk]
      · simp [dictDel, dictGet, h, ih]

/-- Lookup of an absent key. -/
theorem dictGet_not_mem {κ ν : Type} [DecidableEq κ] (k : κ) :
    ∀ l : List (κ × ν), k ∉ l.map Prod.fst → dictGet k l = none := by
  intro l
  induction l with
  | nil => intro _; rfl
  | cons kv rest ih =>
      obtain ⟨k', w⟩ := kv
      intro h
      simp only [List.map_cons, List.mem_cons, not_or] at h
      simp [dictGet, Ne.symm h.1, ih h.2]

/-- Deleting a key removes it, provided the keys are distinct (as they
always are in a dict image). -/
theorem dictGet_del_self {κ ν : Type} [DecidableEq κ] (k : κ) :
    ∀ l : List (κ × ν), (l.map Prod.fst).Nodup →
      dictGet k (dictDel k l) = none := by
  intro l
  induction l with
  | nil => intro _; rfl
  | cons kv rest ih =>
      obtain ⟨k', w⟩ := kv
      intro hnd
      simp only [List.map_cons, List.nodup_cons] at hnd
      by_cases h : k' = k
      · subst h
        simpa [dictDel] using dictGet_not_mem k' rest hnd.1
      · simp [dictDel, dictGet, h, ih hnd.2]

/-- C7: a retry-one call (with the default arguments `use_reference=True`
and empty caller-supplied outline and topic, as in the method's
signature) for a page whose index is in the run's failure map, with a now
succeeding generator: the single re-invoked generation call reuses the
retained reference artifact (`cover_image`) and the run-scoped context
(outline, user images, topic) stored in the run's Batch Run State; on
success the index is added to the `generated` map and removed from the
`failed` map, while the entries of every other index in both maps and the
state of every other run are unchanged. -/
theorem retry_single_moves_failed_index (gen : GenFun) (states : StatesMap)
    (tid : String) (page : Page) (st : TaskState) (b : Bytes)
    (hst : dictGet tid states = some st)
    (hfail : (dictGet page.index st.failed).isSome = true)
    (hnd : (st.failed.map Prod.fst).Nodup)
    (hgen : gen page st.cover_image = .ok b) :
    (retry_single_image gen states tid page true "" "").2.2 =
      ⟨page, st.cover_image, st.full_outline, st.user_images,
        st.user_topic⟩ ∧
    (retry_single_image gen states tid page true "" "").1 =
      ⟨true, page.index,
        some (imageUrl tid (toString page.index ++ ".png")), none⟩ ∧
    (∃ st', dictGet tid
        (retry_single_image gen states tid page true "" "").2.1 = some st' ∧
      dictGet page.index st'.generated =
        some (toString page.index ++ ".png") ∧
      dictGet page.index st'.failed = none ∧
      (∀ j, j ≠ page.index →
        dictGet j st'.generated = dictGet j st.generated ∧
        dictGet j st'.failed = dictGet j st.failed)) ∧
    (∀ tid', tid' ≠ tid →
      dictGet tid' (retry_single_image gen states tid page true "" "").2.1 =
        dictGet tid' states) := by
  refine ⟨?_, ?_, ?_, ?_⟩
  · simp [retry_single_image, hst, generateSingle, hgen]
  · simp [retry_single_image, hst, generateSingle, hgen]
  · refine ⟨{ st with
        generated := dictSet page.index (toString page.index ++ ".png")
          st.generated,
        failed := dictDel page.index st.failed }, ?_, ?_, ?_, ?_⟩
    · simp [retry_single_image, hst, generateSingle, hgen, dictGet_set_self]
    · simp [dictGet_set_self]
    · simpa using dictGet_del_self page.index st.failed hnd
    · intro j hj
      exact ⟨by simpa using dictGet_set_ne j page.index _ hj st.generated,
        by simpa using dictGet_del_ne j page.index hj st.failed⟩
  · intro tid' htid
    simp [retry_single_image, hst, generateSingle, hgen,
      dictGet_set_ne tid' tid _ htid]

/-- Witness for C7: retrying index 3 of run `t1` with an always-succeeding
generator reuses the stored cover `[9]` and the stored context. -/
theorem retry_single_moves_failed_index_witness :
    (retry_single_image genAlwaysOk retryStates "t1" ⟨3, "content", "x"⟩
        true "" "").2.2 =
      ⟨⟨3, "content", "x"⟩, some [9], "o", some [[5]], "top"⟩ :=
  (retry_single_moves_failed_index genAlwaysOk retryStates "t1"
    ⟨3, "content", "x"⟩
    { pages := threePages
      generated := [(0, "0.png")]
      failed := [(3, "quota")]
      cover_image := some [9]
      full_outline := "o"
      user_images := some [[5]]
      user_topic := "top" } [1]
    (by decide) (by decide) (by decide) rfl).1

end RedInk

